import Mathlib

/-!
Shallow embedding of the core geometry pipeline of the raytracer
(src/src/vector3d.rs, ray.rs, interval.rs, hittable.rs, color.rs, camera.rs).

Modelling conventions:
* `f64` is modelled as `ℝ`.  All the claims under study are about the
  real-arithmetic content of the code.
* Rust `&mut` out-parameters are modelled by explicit state passing:
  a function mutating `rec: &mut HitRecord` and returning `bool` becomes a
  function returning `Bool × HitRecord`.
* The only implementor of the `Hittable` trait besides `HittableList` itself
  is `Sphere`, so a `HittableList` is modelled as `List Sphere`.
* Rust saturating float-to-integer casts (`as u16`, `as u8`) are modelled by
  flooring and clamping into the target range.
-/

namespace Raytracer

/-- `Vector3D` from src/src/vector3d.rs: three `f64` components. -/
structure Vector3D where
  x : ℝ
  y : ℝ
  z : ℝ

namespace Vector3D

/-- `Vector3D::new()`: the zero vector. -/
def new : Vector3D := ⟨0, 0, 0⟩

/-- `Vector3D::with_values(x, y, z)`. -/
def with_values (x y z : ℝ) : Vector3D := ⟨x, y, z⟩

end Vector3D

/-- `impl Add for Vector3D`: componentwise addition. -/
instance : Add Vector3D :=
  ⟨fun v w => ⟨v.x + w.x, v.y + w.y, v.z + w.z⟩⟩

/-- `impl Sub for Vector3D`: componentwise subtraction. -/
instance : Sub Vector3D :=
  ⟨fun v w => ⟨v.x - w.x, v.y - w.y, v.z - w.z⟩⟩

/-- `impl Neg for Vector3D`: componentwise negation. -/
instance : Neg Vector3D :=
  ⟨fun v => ⟨-v.x, -v.y, -v.z⟩⟩

/-- `impl Mul for Vector3D`: componentwise product. -/
instance : Mul Vector3D :=
  ⟨fun v w => ⟨v.x * w.x, v.y * w.y, v.z * w.z⟩⟩

/-- `impl Mul<f64> for Vector3D`: `v * t` scales each component. -/
instance : HMul Vector3D ℝ Vector3D :=
  ⟨fun v t => ⟨v.x * t, v.y * t, v.z * t⟩⟩

/-- `impl Mul<Vector3D> for f64`: `t * v` delegates to `v * t`. -/
instance : HMul ℝ Vector3D Vector3D :=
  ⟨fun t v => v * t⟩

/-- `impl Div<f64> for Vector3D`: the source computes `self * (1.0 / t)`. -/
noncomputable instance : HDiv Vector3D ℝ Vector3D :=
  ⟨fun v t => v * (1 / t)⟩

namespace Vector3D

@[simp] lemma add_x (v w : Vector3D) : (v + w).x = v.x + w.x := rfl
@[simp] lemma add_y (v w : Vector3D) : (v + w).y = v.y + w.y := rfl
@[simp] lemma add_z (v w : Vector3D) : (v + w).z = v.z + w.z := rfl
@[simp] lemma sub_x (v w : Vector3D) : (v - w).x = v.x - w.x := rfl
@[simp] lemma sub_y (v w : Vector3D) : (v - w).y = v.y - w.y := rfl
@[simp] lemma sub_z (v w : Vector3D) : (v - w).z = v.z - w.z := rfl
@[simp] lemma neg_x (v : Vector3D) : (-v).x = -v.x := rfl
@[simp] lemma neg_y (v : Vector3D) : (-v).y = -v.y := rfl
@[simp] lemma neg_z (v : Vector3D) : (-v).z = -v.z := rfl
@[simp] lemma smul_x (v : Vector3D) (t : ℝ) : (v * t).x = v.x * t := rfl
@[simp] lemma smul_y (v : Vector3D) (t : ℝ) : (v * t).y = v.y * t := rfl
@[simp] lemma smul_z (v : Vector3D) (t : ℝ) : (v * t).z = v.z * t := rfl
@[simp] lemma smul_left (t : ℝ) (v : Vector3D) : t * v = v * t := rfl
@[simp] lemma div_def (v : Vector3D) (t : ℝ) : v / t = v * (1 / t) := rfl

@[simp] lemma with_values_x (a b c : ℝ) : (with_values a b c).x = a := rfl
@[simp] lemma with_values_y (a b c : ℝ) : (with_values a b c).y = b := rfl
@[simp] lemma with_values_z (a b c : ℝ) : (with_values a b c).z = c := rfl
@[simp] lemma new_x : (new).x = 0 := rfl
@[simp] lemma new_y : (new).y = 0 := rfl
@[simp] lemma new_z : (new).z = 0 := rfl

lemma ext {v w : Vector3D} (hx : v.x = w.x) (hy : v.y = w.y) (hz : v.z = w.z) :
    v = w := by
  cases v; cases w; simp_all

lemma eq_of_sub_eq_new {v w : Vector3D} (h : v - w = Vector3D.new) :
    v = w := by
  have hx := congrArg Vector3D.x h
  have hy := congrArg Vector3D.y h
  have hz := congrArg Vector3D.z h
  simp only [Vector3D.sub_x, Vector3D.sub_y, Vector3D.sub_z] at hx hy hz
  exact ext (by simp at hx; linarith) (by simp at hy; linarith)
    (by simp at hz; linarith)

/-- `Vector3D::dot`. -/
def dot (v w : Vector3D) : ℝ := v.x * w.x + v.y * w.y + v.z * w.z

/-- `Vector3D::length_squared`. -/
def length_squared (v : Vector3D) : ℝ := v.x * v.x + v.y * v.y + v.z * v.z

/-- `Vector3D::length`: `length_squared().sqrt()`. -/
noncomputable def length (v : Vector3D) : ℝ := Real.sqrt v.length_squared

/-- `Vector3D::cross`. -/
def cross (v w : Vector3D) : Vector3D :=
  ⟨v.y * w.z - v.z * w.y, v.z * w.x - v.x * w.z, v.x * w.y - v.y * w.x⟩

/-- `Vector3D::unit_vector`: `self / self.length()`. -/
noncomputable def unit_vector (v : Vector3D) : Vector3D := v / v.length

lemma length_squared_nonneg (v : Vector3D) : 0 ≤ v.length_squared := by
  unfold length_squared
  nlinarith [mul_self_nonneg v.x, mul_self_nonneg v.y, mul_self_nonneg v.z]

lemma length_squared_eq_zero_iff (v : Vector3D) :
    v.length_squared = 0 ↔ v = Vector3D.new := by
  unfold length_squared
  constructor
  · intro h
    have hx : v.x = 0 := by nlinarith [sq_nonneg v.x, sq_nonneg v.y, sq_nonneg v.z]
    have hy : v.y = 0 := by nlinarith [sq_nonneg v.x, sq_nonneg v.y, sq_nonneg v.z]
    have hz : v.z = 0 := by nlinarith [sq_nonneg v.x, sq_nonneg v.y, sq_nonneg v.z]
    exact ext hx hy hz
  · intro h; subst h; simp [Vector3D.new]

/-- When a vector has squared length one, normalizing it is the identity. -/
lemma unit_vector_of_length_squared_one {v : Vector3D}
    (h : v.length_squared = 1) : v.unit_vector = v := by
  unfold unit_vector length
  rw [h, Real.sqrt_one]
  exact ext (by simp) (by simp) (by simp)

/-- Normalizing the zero vector yields the zero vector (0/0 = 0 over ℝ). -/
lemma unit_vector_zero : (Vector3D.new).unit_vector = Vector3D.new := by
  unfold unit_vector length
  exact ext (by simp [Vector3D.new]) (by simp [Vector3D.new]) (by simp [Vector3D.new])

end Vector3D

/-- `Point3D` is a type alias of `Vector3D` in the source. -/
abbrev Point3D := Vector3D

/-- `Color` is a type alias of `Vector3D` in the source. -/
abbrev Color := Vector3D

/-- `Ray` from src/src/ray.rs. -/
structure Ray where
  origin : Point3D
  direction : Vector3D

namespace Ray

/-- `Ray::create`. -/
def create (origin : Point3D) (direction : Vector3D) : Ray := ⟨origin, direction⟩

/-- `Ray::at(t)`: `origin + t * direction` (named `at'` because `at` is a
reserved word in Lean). -/
def at' (r : Ray) (t : ℝ) : Point3D := r.origin + t * r.direction

end Ray

/-- `Interval` from src/src/interval.rs. -/
structure Interval where
  min : ℝ
  max : ℝ

namespace Interval

/-- `Interval::new(_min, _max)`. -/
def new (_min _max : ℝ) : Interval := ⟨_min, _max⟩

@[simp] lemma new_min (a b : ℝ) : (Interval.new a b).min = a := rfl
@[simp] lemma new_max (a b : ℝ) : (Interval.new a b).max = b := rfl

/-- `Interval::contains`: inclusive on both bounds. -/
noncomputable def contains (i : Interval) (x : ℝ) : Bool :=
  decide (i.min ≤ x ∧ x ≤ i.max)

/-- `Interval::surrounds`: exclusive on both bounds. -/
noncomputable def surrounds (i : Interval) (x : ℝ) : Bool :=
  decide (i.min < x ∧ x < i.max)

@[simp] lemma surrounds_eq_true (i : Interval) (x : ℝ) :
    i.surrounds x = true ↔ i.min < x ∧ x < i.max := by
  simp [surrounds]

@[simp] lemma surrounds_eq_false (i : Interval) (x : ℝ) :
    i.surrounds x = false ↔ ¬(i.min < x ∧ x < i.max) := by
  simp [surrounds]

/-- Modelled from the spec: `Interval::clamp` is invoked from `Color::write`
(src/src/color.rs) but its definition is absent from src/src/interval.rs in the
snapshot under review; the spec states that `clamp` saturates a value to
`[min, max]`. -/
noncomputable def clamp (i : Interval) (x : ℝ) : ℝ :=
  if x < i.min then i.min else if x > i.max then i.max else x

end Interval

/-- `HitRecord` from src/src/hittable.rs. -/
structure HitRecord where
  p : Point3D
  normal : Vector3D
  t : ℝ
  front_face : Bool

namespace HitRecord

/-- `HitRecord::default()`. -/
def default : HitRecord := ⟨Vector3D.new, Vector3D.new, 0, false⟩

/-- `HitRecord::set_face_normal(r, outward_normal)`: sets `front_face` to
`dot(r.direction, outward_normal) < 0.0` and stores the outward normal,
negated when the ray hits the inside face. -/
noncomputable def set_face_normal (rec : HitRecord) (r : Ray)
    (outward_normal : Vector3D) : HitRecord :=
  let ff := decide (r.direction.dot outward_normal < 0)
  { rec with
    front_face := ff
    normal := if ff then outward_normal else -outward_normal }

end HitRecord

/-- `Sphere` from src/src/hittable.rs. -/
structure Sphere where
  center : Point3D
  radius : ℝ

namespace Sphere

/-- The success path of `Sphere::hit` once a root has been selected:
`rec.t = root; rec.p = r.at(rec.t);
outward_normal = (rec.p - center) / radius;
rec.set_face_normal(*r, outward_normal.unit_vector())`. -/
noncomputable def hitRecordAt (s : Sphere) (r : Ray) (rec : HitRecord)
    (root : ℝ) : HitRecord :=
  let rec1 : HitRecord := { rec with t := root, p := r.at' root }
  let outward_normal : Vector3D := (rec1.p - s.center) / s.radius
  rec1.set_face_normal r outward_normal.unit_vector

/-- `Sphere::hit` (src/src/hittable.rs, lines 231-260), with the `&mut rec`
out-parameter modelled by state passing. -/
noncomputable def hit (s : Sphere) (r : Ray) (ray_t : Interval)
    (rec : HitRecord) : Bool × HitRecord :=
  let oc : Vector3D := r.origin - s.center
  let a : ℝ := r.direction.length_squared
  let half_b : ℝ := oc.dot r.direction
  let c : ℝ := oc.length_squared - s.radius * s.radius
  let discriminant : ℝ := half_b * half_b - a * c
  if discriminant < 0 then (false, rec)
  else
    let sqrtd : ℝ := Real.sqrt discriminant
    let root1 : ℝ := (-half_b - sqrtd) / a
    if ray_t.surrounds root1 then (true, s.hitRecordAt r rec root1)
    else
      let root2 : ℝ := (-half_b + sqrtd) / a
      if ray_t.surrounds root2 then (true, s.hitRecordAt r rec root2)
      else (false, rec)

/-- The local `discriminant` of `Sphere::hit`:
`half_b * half_b - a * c`. -/
noncomputable def disc (s : Sphere) (r : Ray) : ℝ :=
  let oc : Vector3D := r.origin - s.center
  let a : ℝ := r.direction.length_squared
  let half_b : ℝ := oc.dot r.direction
  let c : ℝ := oc.length_squared - s.radius * s.radius
  half_b * half_b - a * c

/-- The first candidate root of `Sphere::hit`: `(-half_b - sqrtd) / a`. -/
noncomputable def root1 (s : Sphere) (r : Ray) : ℝ :=
  let oc : Vector3D := r.origin - s.center
  let a : ℝ := r.direction.length_squared
  let half_b : ℝ := oc.dot r.direction
  (-half_b - Real.sqrt (s.disc r)) / a

/-- The second candidate root of `Sphere::hit`: `(-half_b + sqrtd) / a`. -/
noncomputable def root2 (s : Sphere) (r : Ray) : ℝ :=
  let oc : Vector3D := r.origin - s.center
  let a : ℝ := r.direction.length_squared
  let half_b : ℝ := oc.dot r.direction
  (-half_b + Real.sqrt (s.disc r)) / a

lemma hit_eq (s : Sphere) (r : Ray) (ray_t : Interval) (rec : HitRecord) :
    s.hit r ray_t rec =
      if s.disc r < 0 then (false, rec)
      else if ray_t.surrounds (s.root1 r) then
        (true, s.hitRecordAt r rec (s.root1 r))
      else if ray_t.surrounds (s.root2 r) then
        (true, s.hitRecordAt r rec (s.root2 r))
      else (false, rec) := rfl

lemma hitRecordAt_t (s : Sphere) (r : Ray) (rec : HitRecord) (root : ℝ) :
    (s.hitRecordAt r rec root).t = root := rfl

lemma hitRecordAt_p (s : Sphere) (r : Ray) (rec : HitRecord) (root : ℝ) :
    (s.hitRecordAt r rec root).p = r.at' root := rfl

/-- The record produced on success does not depend on the incoming record:
every field is overwritten. -/
lemma hitRecordAt_irrel (s : Sphere) (r : Ray) (rec rec' : HitRecord)
    (root : ℝ) : s.hitRecordAt r rec root = s.hitRecordAt r rec' root := rfl

/-- The first candidate root never exceeds the second. -/
lemma root1_le_root2 (s : Sphere) (r : Ray) : s.root1 r ≤ s.root2 r := by
  simp only [root1, root2]
  rcases eq_or_lt_of_le r.direction.length_squared_nonneg with h | h
  · rw [← h]; simp
  · exact (div_le_div_right h).mpr (by nlinarith [Real.sqrt_nonneg (s.disc r)])

/-- The boolean result of `Sphere::hit` does not depend on the incoming
record. -/
lemma hit_fst_irrel (s : Sphere) (r : Ray) (i : Interval)
    (rec rec' : HitRecord) : (s.hit r i rec).1 = (s.hit r i rec').1 := by
  rw [hit_eq, hit_eq]; split_ifs <;> rfl

/-- On success, the record produced by `Sphere::hit` does not depend on the
incoming record. -/
lemma hit_snd_irrel (s : Sphere) (r : Ray) (i : Interval)
    (rec rec' : HitRecord) (h : (s.hit r i rec).1 = true) :
    (s.hit r i rec).2 = (s.hit r i rec').2 := by
  rw [hit_eq] at h ⊢; rw [hit_eq]
  split_ifs at h ⊢ <;> simp_all <;> exact hitRecordAt_irrel ..

/-- On failure, `Sphere::hit` leaves the record untouched. -/
lemma hit_false_snd (s : Sphere) (r : Ray) (i : Interval) (rec : HitRecord)
    (h : (s.hit r i rec).1 = false) : (s.hit r i rec).2 = rec := by
  rw [hit_eq] at h ⊢
  split_ifs at h ⊢ <;> simp_all

/-- The parameter reported by a successful `Sphere::hit` is strictly
surrounded by the search interval. -/
lemma hit_t_surrounds (s : Sphere) (r : Ray) (i : Interval) (rec : HitRecord)
    (h : (s.hit r i rec).1 = true) :
    i.min < (s.hit r i rec).2.t ∧ (s.hit r i rec).2.t < i.max := by
  rw [hit_eq] at h ⊢
  split_ifs at h ⊢ with h1 h2 h3 <;> simp_all [hitRecordAt_t]

/-- Stability under widening of the search interval: a hit found in
`[m, c]` with `c ≤ M` is reported identically over `[m, M]`. -/
lemma hit_narrow_to_wide (s : Sphere) (r : Ray) {m c M : ℝ}
    (rec rec' : HitRecord) {h₀ : HitRecord} (hcM : c ≤ M)
    (h : s.hit r (Interval.new m c) rec = (true, h₀)) :
    s.hit r (Interval.new m M) rec' = (true, h₀) := by
  rw [hit_eq] at h ⊢
  by_cases hd : s.disc r < 0
  · rw [if_pos hd] at h
    exact absurd (congrArg Prod.fst h) Bool.false_ne_true
  rw [if_neg hd] at h ⊢
  by_cases hn1 : (Interval.new m c).surrounds (s.root1 r) = true
  · rcases (Interval.surrounds_eq_true _ _).mp hn1 with ⟨ha1, ha2⟩
    have hw1 : (Interval.new m M).surrounds (s.root1 r) = true :=
      (Interval.surrounds_eq_true _ _).mpr ⟨ha1, lt_of_lt_of_le ha2 hcM⟩
    rw [if_pos hn1] at h
    rw [if_pos hw1, hitRecordAt_irrel s r rec' rec]
    exact h
  rw [if_neg hn1] at h
  by_cases hn2 : (Interval.new m c).surrounds (s.root2 r) = true
  · rcases (Interval.surrounds_eq_true _ _).mp hn2 with ⟨hb1, hb2⟩
    rw [if_pos hn2] at h
    have hc1 : ¬ (m < s.root1 r ∧ s.root1 r < c) := by
      simpa using hn1
    have hw1 : ¬ (Interval.new m M).surrounds (s.root1 r) = true := by
      intro hw
      rcases (Interval.surrounds_eq_true _ _).mp hw with ⟨hm1, _⟩
      have h1c : c ≤ s.root1 r := le_of_not_lt fun hcc => hc1 ⟨hm1, hcc⟩
      exact absurd (lt_of_lt_of_le hb2 (h1c.trans (s.root1_le_root2 r)))
        (lt_irrefl _)
    have hw2 : (Interval.new m M).surrounds (s.root2 r) = true :=
      (Interval.surrounds_eq_true _ _).mpr ⟨hb1, lt_of_lt_of_le hb2 hcM⟩
    rw [if_neg hw1, if_pos hw2, hitRecordAt_irrel s r rec' rec]
    exact h
  rw [if_neg hn2] at h
  exact absurd (congrArg Prod.fst h) Bool.false_ne_true

/-- Solving the quadratic: either closed-form root zeroes
`a·t² + 2·half_b·t + c` when `q = sqrt(half_b² − a·c)`. -/
lemma quadratic_root_solves (a hb c q t : ℝ) (ha : a ≠ 0)
    (hq : q * q = hb * hb - a * c)
    (ht : t = (-hb - q) / a ∨ t = (-hb + q) / a) :
    a * (t * t) + 2 * hb * t + c = 0 := by
  rcases ht with ht | ht <;> subst ht <;> field_simp <;>
    linear_combination (a ^ 2) * hq

/-- Squared distance from a point of the ray to an arbitrary point, as a
quadratic polynomial in the ray parameter. -/
lemma at_sub_length_squared (r : Ray) (q : Vector3D) (t : ℝ) :
    (r.at' t - q).length_squared
      = r.direction.length_squared * (t * t)
        + 2 * ((r.origin - q).dot r.direction) * t
        + (r.origin - q).length_squared := by
  simp only [Ray.at', Vector3D.length_squared, Vector3D.dot,
    Vector3D.add_x, Vector3D.add_y, Vector3D.add_z, Vector3D.sub_x,
    Vector3D.sub_y, Vector3D.sub_z, Vector3D.smul_left, Vector3D.smul_x,
    Vector3D.smul_y, Vector3D.smul_z]
  ring

/-- The point of the ray at either candidate root lies exactly on the
sphere. -/
lemma dist_at_root (s : Sphere) (r : Ray)
    (ha : r.direction.length_squared ≠ 0) (hd : 0 ≤ s.disc r)
    {t : ℝ} (ht : t = s.root1 r ∨ t = s.root2 r) :
    (r.at' t - s.center).length_squared = s.radius * s.radius := by
  have hq : Real.sqrt (s.disc r) * Real.sqrt (s.disc r) = s.disc r :=
    Real.mul_self_sqrt hd
  have hdisc : s.disc r
      = ((r.origin - s.center).dot r.direction)
          * ((r.origin - s.center).dot r.direction)
        - r.direction.length_squared
          * ((r.origin - s.center).length_squared - s.radius * s.radius) :=
    rfl
  have hroot : t = (-(((r.origin - s.center).dot r.direction))
        - Real.sqrt (s.disc r)) / r.direction.length_squared
      ∨ t = (-(((r.origin - s.center).dot r.direction))
        + Real.sqrt (s.disc r)) / r.direction.length_squared := by
    rcases ht with ht | ht
    · exact Or.inl ht
    · exact Or.inr ht
  have h0 := quadratic_root_solves r.direction.length_squared
    ((r.origin - s.center).dot r.direction)
    ((r.origin - s.center).length_squared - s.radius * s.radius)
    (Real.sqrt (s.disc r)) t ha (by rw [hq, hdisc]) hroot
  rw [at_sub_length_squared]
  linarith [h0]

/-- The success record exactly as claim C1 words it: `t` is the chosen root,
`p = ray.at(t)`, `outward_normal = (p − center)/radius` (no renormalization),
`front_face = dot(ray.direction, outward_normal) < 0`, and the stored normal
is `outward_normal` when front-facing, `−outward_normal` otherwise. -/
noncomputable def specRecordAt (s : Sphere) (r : Ray) (root : ℝ) :
    HitRecord :=
  let p := r.at' root
  let outward_normal := (p - s.center) / s.radius
  let front_face := decide (r.direction.dot outward_normal < 0)
  ⟨p, if front_face then outward_normal else -outward_normal, root,
    front_face⟩

/-- Scaling scales the squared length quadratically. -/
lemma length_squared_smul (v : Vector3D) (t : ℝ) :
    (v * t).length_squared = v.length_squared * (t * t) := by
  simp only [Vector3D.length_squared, Vector3D.smul_x, Vector3D.smul_y,
    Vector3D.smul_z]
  ring

/-- When the chosen root puts the hit point exactly on the sphere, the
record built by the code (which renormalizes the outward normal) agrees
with the record described by the specification (which does not). -/
lemma hitRecordAt_eq_spec (s : Sphere) (r : Ray) (rec : HitRecord)
    (root : ℝ)
    (hsq : (r.at' root - s.center).length_squared = s.radius * s.radius) :
    s.hitRecordAt r rec root = s.specRecordAt r root := by
  by_cases hr : s.radius = 0
  · have houtz : (r.at' root - s.center) / s.radius = Vector3D.new := by
      rw [hr]
      exact Vector3D.ext (by simp) (by simp) (by simp)
    show HitRecord.set_face_normal _ r
        ((r.at' root - s.center) / s.radius).unit_vector = _
    rw [houtz, Vector3D.unit_vector_zero]
    show (⟨r.at' root,
        if decide (r.direction.dot Vector3D.new < 0) then Vector3D.new
        else -Vector3D.new, root,
        decide (r.direction.dot Vector3D.new < 0)⟩ : HitRecord) = _
    rw [specRecordAt, houtz]
  · have hlsq : ((r.at' root - s.center) / s.radius).length_squared = 1 := by
      rw [Vector3D.div_def, length_squared_smul, hsq]
      field_simp
    have hunit := Vector3D.unit_vector_of_length_squared_one hlsq
    show HitRecord.set_face_normal _ r
        ((r.at' root - s.center) / s.radius).unit_vector = _
    rw [hunit]
    rfl

/-- A sphere missed over the narrowed interval `[m, c]` but hit over the
wider `[m, M]` reports a parameter at least `c`. -/
lemma hit_miss_t_ge (s : Sphere) (r : Ray) {m c M : ℝ}
    (rec rec' : HitRecord) (hcM : c ≤ M)
    (hmiss : (s.hit r (Interval.new m c) rec).1 = false)
    (hhit : (s.hit r (Interval.new m M) rec').1 = true) :
    c ≤ (s.hit r (Interval.new m M) rec').2.t := by
  rw [hit_eq] at hmiss hhit ⊢
  by_cases hd : s.disc r < 0
  · rw [if_pos hd] at hhit
    exact absurd hhit Bool.false_ne_true
  rw [if_neg hd] at hmiss hhit ⊢
  have hn1 : ¬ (Interval.new m c).surrounds (s.root1 r) = true := by
    intro hc
    rw [if_pos hc] at hmiss
    exact absurd hmiss (by simp)
  rw [if_neg hn1] at hmiss
  have hn2 : ¬ (Interval.new m c).surrounds (s.root2 r) = true := by
    intro hc
    rw [if_pos hc] at hmiss
    exact absurd hmiss (by simp)
  by_cases hw1 : (Interval.new m M).surrounds (s.root1 r) = true
  · rw [if_pos hw1]
    rcases (Interval.surrounds_eq_true _ _).mp hw1 with ⟨hm1, _⟩
    have : ¬ (m < s.root1 r ∧ s.root1 r < c) := by simpa using hn1
    have h1c : c ≤ s.root1 r := le_of_not_lt fun hcc => this ⟨hm1, hcc⟩
    simpa [hitRecordAt_t] using h1c
  rw [if_neg hw1] at hhit ⊢
  by_cases hw2 : (Interval.new m M).surrounds (s.root2 r) = true
  · rw [if_pos hw2]
    rcases (Interval.surrounds_eq_true _ _).mp hw2 with ⟨hm2, _⟩
    have : ¬ (m < s.root2 r ∧ s.root2 r < c) := by simpa using hn2
    have h2c : c ≤ s.root2 r := le_of_not_lt fun hcc => this ⟨hm2, hcc⟩
    simpa [hitRecordAt_t] using h2c
  rw [if_neg hw2] at hhit
  exact absurd hhit (by simp)

end Sphere

/-- `HittableList` (src/src/hittable.rs): `Vec<Rc<dyn Hittable>>`; the only
primitive implementing `Hittable` in the source is `Sphere`. -/
abbrev HittableList := List Sphere

namespace HittableList

/-- The loop body of `HittableList::hit`, with loop state
`(closest_so_far, temp_rec, hit_anything, rec)` passed explicitly. -/
noncomputable def hitLoop (r : Ray) (tmin : ℝ) :
    List Sphere → ℝ → HitRecord → Bool → HitRecord → Bool × HitRecord
  | [], _, _, hit_anything, rec => (hit_anything, rec)
  | object :: rest, closest_so_far, temp_rec, hit_anything, rec =>
    let res := object.hit r (Interval.new tmin closest_so_far) temp_rec
    if res.1 then hitLoop r tmin rest res.2.t res.2 true res.2
    else hitLoop r tmin rest closest_so_far res.2 hit_anything rec

/-- `HittableList::hit` (src/src/hittable.rs, lines 119-133): iterates the
members, narrowing the acceptable interval to the closest hit so far. -/
noncomputable def hit (l : HittableList) (r : Ray) (ray_t : Interval)
    (rec : HitRecord) : Bool × HitRecord :=
  hitLoop r ray_t.min l ray_t.max HitRecord.default false rec

/-- Loop invariant of `HittableList::hit`: starting from loop state
`(closest_so_far, temp_rec, hit_anything, rec)`, either no member hits the
current search interval `(tmin, closest)` and the state `(hit_anything, rec)`
is returned untouched, or the loop returns `true` together with the record of
a member hit over `(tmin, closest)` whose parameter is minimal among all
member hits over that interval. -/
lemma hitLoop_spec (r : Ray) (tmin : ℝ) (l : List Sphere) :
    ∀ (closest : ℝ) (temp rec : HitRecord) (b : Bool),
      (hitLoop r tmin l closest temp b rec = (b, rec) ∧
        ∀ s ∈ l,
          (s.hit r (Interval.new tmin closest) HitRecord.default).1 = false) ∨
      ((hitLoop r tmin l closest temp b rec).1 = true ∧
        (hitLoop r tmin l closest temp b rec).2.t < closest ∧
        tmin < (hitLoop r tmin l closest temp b rec).2.t ∧
        (∃ s ∈ l, s.hit r (Interval.new tmin closest) HitRecord.default
            = (true, (hitLoop r tmin l closest temp b rec).2)) ∧
        ∀ s ∈ l,
          (s.hit r (Interval.new tmin closest) HitRecord.default).1 = true →
          (hitLoop r tmin l closest temp b rec).2.t
            ≤ (s.hit r (Interval.new tmin closest) HitRecord.default).2.t) := by
  induction l with
  | nil =>
    intro closest temp rec b
    left
    exact ⟨rfl, by simp⟩
  | cons s rest ih =>
    intro closest temp rec b
    by_cases hs : (s.hit r (Interval.new tmin closest) temp).1 = true
    · -- the head sphere hits the current interval
      have hres_eq : s.hit r (Interval.new tmin closest) temp
          = (true, (s.hit r (Interval.new tmin closest) temp).2) := by
        rw [← hs]
      have hstep : hitLoop r tmin (s :: rest) closest temp b rec
          = hitLoop r tmin rest (s.hit r (Interval.new tmin closest) temp).2.t
              (s.hit r (Interval.new tmin closest) temp).2 true
              (s.hit r (Interval.new tmin closest) temp).2 := by
        simp only [hitLoop]
        rw [if_pos hs]
      have hsurr := Sphere.hit_t_surrounds s r (Interval.new tmin closest)
        temp hs
      rw [Interval.new_min, Interval.new_max] at hsurr
      have hfstd : (s.hit r (Interval.new tmin closest) HitRecord.default).1
          = true := by
        rw [Sphere.hit_fst_irrel s r _ HitRecord.default temp]; exact hs
      have hsndd : (s.hit r (Interval.new tmin closest) HitRecord.default).2
          = (s.hit r (Interval.new tmin closest) temp).2 :=
        Sphere.hit_snd_irrel s r _ HitRecord.default temp hfstd
      have hhitd : s.hit r (Interval.new tmin closest) HitRecord.default
          = (true, (s.hit r (Interval.new tmin closest) temp).2) := by
        rw [← hfstd, ← hsndd]
      rcases ih (s.hit r (Interval.new tmin closest) temp).2.t
          (s.hit r (Interval.new tmin closest) temp).2
          (s.hit r (Interval.new tmin closest) temp).2 true with
        ⟨hloop, hmiss⟩ | ⟨h1, h2, h3, ⟨s'', hmem'', hs''⟩, hmin⟩
      · -- no member of the tail hits the narrowed interval
        right
        rw [hstep, hloop]
        refine ⟨rfl, hsurr.2, hsurr.1, ⟨s, List.mem_cons_self s rest, hhitd⟩,
          ?_⟩
        intro s' hmem' hhit'
        rcases List.mem_cons.mp hmem' with h | h
        · subst h
          rw [hsndd]
        · have hmiss' := hmiss s' h
          exact Sphere.hit_miss_t_ge s' r HitRecord.default HitRecord.default
            (le_of_lt hsurr.2) hmiss' hhit'
      · -- the tail produced a strictly closer hit
        right
        rw [hstep]
        refine ⟨h1, lt_trans h2 hsurr.2, h3, ?_, ?_⟩
        · exact ⟨s'', List.mem_cons_of_mem s hmem'',
            Sphere.hit_narrow_to_wide s'' r HitRecord.default
              HitRecord.default (le_of_lt hsurr.2) hs''⟩
        · intro s' hmem' hhit'
          rcases List.mem_cons.mp hmem' with h | h
          · subst h
            rw [hsndd]
            exact le_of_lt h2
          · by_cases hn :
              (s'.hit r (Interval.new tmin (s.hit r
                (Interval.new tmin closest) temp).2.t) HitRecord.default).1
                = true
            · have hnrec : s'.hit r (Interval.new tmin (s.hit r
                  (Interval.new tmin closest) temp).2.t) HitRecord.default
                  = (true, (s'.hit r (Interval.new tmin (s.hit r
                      (Interval.new tmin closest) temp).2.t)
                      HitRecord.default).2) := by
                rw [← hn]
              have hwide := Sphere.hit_narrow_to_wide s' r HitRecord.default
                HitRecord.default (le_of_lt hsurr.2) hnrec
              have := hmin s' h hn
              rw [hwide]
              exact this
            · have hn' : (s'.hit r (Interval.new tmin (s.hit r
                  (Interval.new tmin closest) temp).2.t)
                  HitRecord.default).1 = false := by
                simpa using hn
              have := Sphere.hit_miss_t_ge s' r HitRecord.default
                HitRecord.default (le_of_lt hsurr.2) hn' hhit'
              exact le_trans (le_of_lt h2) this
    · -- the head sphere misses the current interval
      have hs' : (s.hit r (Interval.new tmin closest) temp).1 = false := by
        simpa using hs
      have hstep : hitLoop r tmin (s :: rest) closest temp b rec
          = hitLoop r tmin rest closest
              (s.hit r (Interval.new tmin closest) temp).2 b rec := by
        simp only [hitLoop]
        rw [if_neg hs]
      have hfstd : (s.hit r (Interval.new tmin closest) HitRecord.default).1
          = false := by
        rw [Sphere.hit_fst_irrel s r _ HitRecord.default temp]; exact hs'
      rcases ih closest (s.hit r (Interval.new tmin closest) temp).2 rec b
        with ⟨hloop, hmiss⟩ | ⟨h1, h2, h3, ⟨s'', hmem'', hs''⟩, hmin⟩
      · left
        rw [hstep, hloop]
        refine ⟨rfl, ?_⟩
        intro s' hmem'
        rcases List.mem_cons.mp hmem' with h | h
        · subst h; exact hfstd
        · exact hmiss s' h
      · right
        rw [hstep]
        refine ⟨h1, h2, h3, ⟨s'', List.mem_cons_of_mem s hmem'', hs''⟩, ?_⟩
        intro s' hmem' hhit'
        rcases List.mem_cons.mp hmem' with h | h
        · subst h
          exact absurd hhit' (by rw [hfstd]; simp)
        · exact hmin s' h hhit'

/-- Characterization of `HittableList::hit`: the boolean is true exactly when
some member hits the search interval; on failure the record is untouched; on
success the record is a member hit over the full interval with minimal
parameter among all member hits. -/
lemma hit_spec (l : HittableList) (r : Ray) (i : Interval) (rec : HitRecord) :
    ((l.hit r i rec).1 = true ↔
      ∃ s ∈ l, (s.hit r i HitRecord.default).1 = true) ∧
    ((l.hit r i rec).1 = false → (l.hit r i rec).2 = rec) ∧
    ((l.hit r i rec).1 = true →
      (i.min < (l.hit r i rec).2.t ∧ (l.hit r i rec).2.t < i.max) ∧
      (∃ s ∈ l, s.hit r i HitRecord.default = (true, (l.hit r i rec).2)) ∧
      ∀ s ∈ l, (s.hit r i HitRecord.default).1 = true →
        (l.hit r i rec).2.t ≤ (s.hit r i HitRecord.default).2.t) := by
  have hi : Interval.new i.min i.max = i := rfl
  have h := hitLoop_spec r i.min l i.max HitRecord.default rec false
  rw [hi] at h
  rcases h with ⟨hloop, hmiss⟩ | ⟨h1, h2, h3, hex, hmin⟩
  · constructor
    · rw [HittableList.hit, hloop]
      constructor
      · intro h; exact absurd h (by simp)
      · rintro ⟨s, hmem, hhit⟩
        exact absurd hhit (by rw [hmiss s hmem]; simp)
    · refine ⟨?_, ?_⟩
      · intro _; rw [HittableList.hit, hloop]
      · intro h; rw [HittableList.hit, hloop] at h
        exact absurd h (by simp)
  · refine ⟨?_, ?_, ?_⟩
    · rw [HittableList.hit]
      refine ⟨fun _ => ?_, fun _ => h1⟩
      rcases hex with ⟨s, hmem, hs⟩
      exact ⟨s, hmem, by rw [hs]⟩
    · intro h; rw [HittableList.hit] at h
      exact absurd h (by rw [h1]; simp)
    · intro _
      rw [HittableList.hit]
      exact ⟨⟨h3, h2⟩, hex, hmin⟩

/-- `HittableList::hit` on a one-element list behaves exactly like that
member's `Sphere::hit` with the same arguments. -/
lemma hit_singleton (s : Sphere) (r : Ray) (i : Interval) (rec : HitRecord) :
    HittableList.hit [s] r i rec = s.hit r i rec := by
  have hi : Interval.new i.min i.max = i := rfl
  rw [HittableList.hit]
  simp only [hitLoop]
  rw [hi]
  by_cases hs : (s.hit r i HitRecord.default).1 = true
  · rw [if_pos hs]
    have h1 : (s.hit r i rec).1 = true := by
      rw [Sphere.hit_fst_irrel s r i rec HitRecord.default]; exact hs
    have h2 : (s.hit r i HitRecord.default).2 = (s.hit r i rec).2 :=
      Sphere.hit_snd_irrel s r i HitRecord.default rec hs
    exact Prod.ext_iff.mpr ⟨h1.symm, h2⟩
  · rw [if_neg hs]
    have h1 : (s.hit r i rec).1 = false := by
      rw [Sphere.hit_fst_irrel s r i rec HitRecord.default]
      simpa using hs
    have h2 : (s.hit r i rec).2 = rec :=
      Sphere.hit_false_snd s r i rec h1
    exact Prod.ext_iff.mpr ⟨h1.symm, h2.symm⟩

end HittableList

namespace Color

/-- `Color::linear_to_gamma`: `linear_component.sqrt()`. -/
noncomputable def linear_to_gamma (linear_component : ℝ) : ℝ :=
  Real.sqrt linear_component

/-- Rust saturating cast `as u8` of a nonnegative in-range `f64`:
floor into `[0, 255]`. -/
noncomputable def f64_as_u8 (x : ℝ) : ℕ := (min 255 ⌊x⌋).toNat

/-- The numeric core of `Color::write` (src/src/color.rs, lines 21-51):
divide each channel by `samples_per_pixel`, apply the linear-to-gamma
transform, clamp to `[0.000, 0.999]`, scale by `255.999` and truncate to a
byte.  The three bytes written to the stream are returned as a triple. -/
noncomputable def write (c : Color) (samples_per_pixel : ℕ) : ℕ × ℕ × ℕ :=
  let r := c.x
  let g := c.y
  let b := c.z
  let scale : ℝ := 1.0 / (samples_per_pixel : ℝ)
  let r := r * scale
  let g := g * scale
  let b := b * scale
  let r := linear_to_gamma r
  let g := linear_to_gamma g
  let b := linear_to_gamma b
  let interval : Interval := Interval.new 0.000 0.999
  (f64_as_u8 (255.999 * interval.clamp r),
   f64_as_u8 (255.999 * interval.clamp g),
   f64_as_u8 (255.999 * interval.clamp b))

end Color

namespace Camera

/-- The `image_height` computation of `Camera::initialize`
(src/src/camera.rs, lines 92-98):
`(f64::from(image_width) / aspect ratio) as u16`, floored at 1.  The Rust
float-to-`u16` cast saturates into `[0, 65535]` and truncates toward zero;
`Int.toNat` of the clamped floor models this (the quotient is truncated,
not rounded). -/
noncomputable def image_height (image_width : ℕ) (aspect : ℝ) : ℕ :=
  let h : ℕ := (min 65535 ⌊(image_width : ℝ) / aspect⌋).toNat
  if h < 1 then 1 else h

/-- `Camera::ray_color` (src/src/camera.rs, lines 125-134).  The source
queries the world over `Interval::new(0.0, f64::INFINITY)`; `ℝ` has no
infinity, so the upper bound is the parameter `tmax`, universally
quantified in the theorems below. -/
noncomputable def ray_color (tmax : ℝ) (r : Ray) (world : HittableList) :
    Color :=
  let res := world.hit r (Interval.new 0 tmax) HitRecord.default
  if res.1 then (0.5 : ℝ) * (res.2.normal + Vector3D.with_values 1 1 1)
  else
    let unit_direction : Vector3D := r.direction.unit_vector
    let a : ℝ := 0.5 * unit_direction.y + 1.0
    (1.0 - a) * Vector3D.with_values 1 1 1 + a * Vector3D.with_values 0.5 0.7 1.0

end Camera

-- ---------------------------------------------------------------------------
-- Concrete test geometry (mirroring the repository's unit tests) and
-- evaluation lemmas used by witnesses and counterexamples.
-- ---------------------------------------------------------------------------

/-- The unit sphere centered at (2,0,0) used by the repository's tests. -/
def testSphere : Sphere := ⟨Vector3D.with_values 2 0 0, 1⟩

/-- A degenerate sphere of radius 0 centered at (2,0,0). -/
def pointSphere : Sphere := ⟨Vector3D.with_values 2 0 0, 0⟩

/-- The unit sphere centered at (2,0,1), tangent to the x-axis at (2,0,0). -/
def sphereA : Sphere := ⟨Vector3D.with_values 2 0 1, 1⟩

/-- The unit sphere centered at (2,0,-1), tangent to the x-axis at (2,0,0). -/
def sphereB : Sphere := ⟨Vector3D.with_values 2 0 (-1), 1⟩

/-- Ray from the origin along +x. -/
def xRay : Ray := Ray.create Vector3D.new (Vector3D.with_values 1 0 0)

/-- Ray from the origin along −x. -/
def negRay : Ray := Ray.create Vector3D.new (Vector3D.with_values (-1) 0 0)

/-- Ray from the origin straight up. -/
def upRay : Ray := Ray.create Vector3D.new (Vector3D.with_values 0 1 0)

/-- Ray from the origin straight down. -/
def downRay : Ray := Ray.create Vector3D.new (Vector3D.with_values 0 (-1) 0)

lemma testSphere_disc : testSphere.disc xRay = 1 := by
  norm_num [testSphere, xRay, Ray.create, Sphere.disc, Vector3D.dot,
    Vector3D.length_squared]

lemma testSphere_root1 : testSphere.root1 xRay = 1 := by
  simp only [Sphere.root1, testSphere_disc, Real.sqrt_one]
  norm_num [testSphere, xRay, Ray.create, Vector3D.dot,
    Vector3D.length_squared]

/-- Evaluation of the repository's `sphere_hit_outside` test scenario. -/
lemma testSphere_hit_eval :
    testSphere.hit xRay (Interval.new 0.5 1.5) HitRecord.default
      = (true, ⟨Vector3D.with_values 1 0 0, Vector3D.with_values (-1) 0 0,
          1, true⟩) := by
  have h0 : ¬ testSphere.disc xRay < 0 := by rw [testSphere_disc]; norm_num
  have h1 : (Interval.new 0.5 1.5).surrounds (testSphere.root1 xRay)
      = true := by
    rw [testSphere_root1, Interval.surrounds_eq_true]
    norm_num
  rw [Sphere.hit_eq, if_neg h0, if_pos h1, testSphere_root1]
  have hp : xRay.at' 1 = Vector3D.with_values 1 0 0 := by
    apply Vector3D.ext <;> norm_num [Ray.at', xRay, Ray.create]
  have hsq : (xRay.at' 1 - testSphere.center).length_squared
      = testSphere.radius * testSphere.radius := by
    rw [hp]
    norm_num [testSphere, Vector3D.length_squared]
  rw [Sphere.hitRecordAt_eq_spec testSphere xRay HitRecord.default 1 hsq,
    Sphere.specRecordAt, hp]
  have hout : (Vector3D.with_values 1 0 0 - testSphere.center)
      / testSphere.radius = Vector3D.with_values (-1) 0 0 := by
    apply Vector3D.ext <;> norm_num [testSphere]
  rw [hout]
  have hff : decide
      (xRay.direction.dot (Vector3D.with_values (-1) 0 0) < 0) = true := by
    rw [decide_eq_true_eq]
    norm_num [xRay, Ray.create, Vector3D.dot]
  rw [hff]
  simp

/-- Evaluation of the repository's `sphere_not_hit` test scenario: the
reversed ray misses, whatever the incoming record. -/
lemma negRay_miss_eval (rec : HitRecord) :
    testSphere.hit negRay (Interval.new 2.5 3.5) rec = (false, rec) := by
  have hdisc : testSphere.disc negRay = 1 := by
    norm_num [testSphere, negRay, Ray.create, Sphere.disc, Vector3D.dot,
      Vector3D.length_squared]
  have hroot1 : testSphere.root1 negRay = -3 := by
    simp only [Sphere.root1, hdisc, Real.sqrt_one]
    norm_num [testSphere, negRay, Ray.create, Vector3D.dot,
      Vector3D.length_squared]
  have hroot2 : testSphere.root2 negRay = -1 := by
    simp only [Sphere.root2, hdisc, Real.sqrt_one]
    norm_num [testSphere, negRay, Ray.create, Vector3D.dot,
      Vector3D.length_squared]
  have h0 : ¬ testSphere.disc negRay < 0 := by rw [hdisc]; norm_num
  have h1 : ¬ (Interval.new 2.5 3.5).surrounds (testSphere.root1 negRay)
      = true := by
    rw [hroot1, Interval.surrounds_eq_true]
    norm_num
  have h2 : ¬ (Interval.new 2.5 3.5).surrounds (testSphere.root2 negRay)
      = true := by
    rw [hroot2, Interval.surrounds_eq_true]
    norm_num
  rw [Sphere.hit_eq, if_neg h0, if_neg h1, if_neg h2]

/-- A radius-0 sphere is hit by a ray through its center: evaluation on the
+x ray against the degenerate point sphere. -/
lemma pointSphere_hit_eval :
    pointSphere.hit xRay (Interval.new 1 3) HitRecord.default
      = (true, ⟨Vector3D.with_values 2 0 0, Vector3D.with_values 0 0 0,
          2, false⟩) := by
  have hdisc : pointSphere.disc xRay = 0 := by
    norm_num [pointSphere, xRay, Ray.create, Sphere.disc, Vector3D.dot,
      Vector3D.length_squared]
  have hroot1 : pointSphere.root1 xRay = 2 := by
    simp only [Sphere.root1, hdisc, Real.sqrt_zero]
    norm_num [pointSphere, xRay, Ray.create, Vector3D.dot,
      Vector3D.length_squared]
  have h0 : ¬ pointSphere.disc xRay < 0 := by rw [hdisc]; norm_num
  have h1 : (Interval.new 1 3).surrounds (pointSphere.root1 xRay)
      = true := by
    rw [hroot1, Interval.surrounds_eq_true]
    norm_num
  rw [Sphere.hit_eq, if_neg h0, if_pos h1, hroot1]
  have hp : xRay.at' 2 = Vector3D.with_values 2 0 0 := by
    apply Vector3D.ext <;> norm_num [Ray.at', xRay, Ray.create]
  have hsq : (xRay.at' 2 - pointSphere.center).length_squared
      = pointSphere.radius * pointSphere.radius := by
    rw [hp]
    norm_num [pointSphere, Vector3D.length_squared]
  rw [Sphere.hitRecordAt_eq_spec pointSphere xRay HitRecord.default 2 hsq,
    Sphere.specRecordAt, hp]
  have hout : (Vector3D.with_values 2 0 0 - pointSphere.center)
      / pointSphere.radius = Vector3D.with_values 0 0 0 := by
    apply Vector3D.ext <;> norm_num [pointSphere]
  rw [hout]
  have hff : decide
      (xRay.direction.dot (Vector3D.with_values 0 0 0) < 0) = false := by
    rw [decide_eq_false_iff_not]
    norm_num [xRay, Ray.create, Vector3D.dot]
  rw [hff]
  have hneg : -(Vector3D.with_values 0 0 0) = Vector3D.with_values 0 0 0 := by
    apply Vector3D.ext <;> norm_num
  simp [hneg]

/-- `sphereA` is tangent to the +x ray at (2,0,0): hit at `t = 2` with
normal (0,0,1) (back face, since the outward normal is orthogonal to the
ray). -/
lemma sphereA_wide_eval :
    sphereA.hit xRay (Interval.new 0 10) HitRecord.default
      = (true, ⟨Vector3D.with_values 2 0 0, Vector3D.with_values 0 0 1,
          2, false⟩) := by
  have hdisc : sphereA.disc xRay = 0 := by
    norm_num [sphereA, xRay, Ray.create, Sphere.disc, Vector3D.dot,
      Vector3D.length_squared]
  have hroot1 : sphereA.root1 xRay = 2 := by
    simp only [Sphere.root1, hdisc, Real.sqrt_zero]
    norm_num [sphereA, xRay, Ray.create, Vector3D.dot,
      Vector3D.length_squared]
  have h0 : ¬ sphereA.disc xRay < 0 := by rw [hdisc]; norm_num
  have h1 : (Interval.new 0 10).surrounds (sphereA.root1 xRay) = true := by
    rw [hroot1, Interval.surrounds_eq_true]
    norm_num
  rw [Sphere.hit_eq, if_neg h0, if_pos h1, hroot1]
  have hp : xRay.at' 2 = Vector3D.with_values 2 0 0 := by
    apply Vector3D.ext <;> norm_num [Ray.at', xRay, Ray.create]
  have hsq : (xRay.at' 2 - sphereA.center).length_squared
      = sphereA.radius * sphereA.radius := by
    rw [hp]
    norm_num [sphereA, Vector3D.length_squared]
  rw [Sphere.hitRecordAt_eq_spec sphereA xRay HitRecord.default 2 hsq,
    Sphere.specRecordAt, hp]
  have hout : (Vector3D.with_values 2 0 0 - sphereA.center)
      / sphereA.radius = Vector3D.with_values 0 0 (-1) := by
    apply Vector3D.ext <;> norm_num [sphereA]
  rw [hout]
  have hff : decide
      (xRay.direction.dot (Vector3D.with_values 0 0 (-1)) < 0) = false := by
    rw [decide_eq_false_iff_not]
    norm_num [xRay, Ray.create, Vector3D.dot]
  rw [hff]
  have hneg : -(Vector3D.with_values 0 0 (-1)) = Vector3D.with_values 0 0 1 := by
    apply Vector3D.ext <;> norm_num
  simp [hneg]

/-- `sphereB` is tangent to the +x ray at (2,0,0): hit at `t = 2` with
normal (0,0,−1). -/
lemma sphereB_wide_eval :
    sphereB.hit xRay (Interval.new 0 10) HitRecord.default
      = (true, ⟨Vector3D.with_values 2 0 0, Vector3D.with_values 0 0 (-1),
          2, false⟩) := by
  have hdisc : sphereB.disc xRay = 0 := by
    norm_num [sphereB, xRay, Ray.create, Sphere.disc, Vector3D.dot,
      Vector3D.length_squared]
  have hroot1 : sphereB.root1 xRay = 2 := by
    simp only [Sphere.root1, hdisc, Real.sqrt_zero]
    norm_num [sphereB, xRay, Ray.create, Vector3D.dot,
      Vector3D.length_squared]
  have h0 : ¬ sphereB.disc xRay < 0 := by rw [hdisc]; norm_num
  have h1 : (Interval.new 0 10).surrounds (sphereB.root1 xRay) = true := by
    rw [hroot1, Interval.surrounds_eq_true]
    norm_num
  rw [Sphere.hit_eq, if_neg h0, if_pos h1, hroot1]
  have hp : xRay.at' 2 = Vector3D.with_values 2 0 0 := by
    apply Vector3D.ext <;> norm_num [Ray.at', xRay, Ray.create]
  have hsq : (xRay.at' 2 - sphereB.center).length_squared
      = sphereB.radius * sphereB.radius := by
    rw [hp]
    norm_num [sphereB, Vector3D.length_squared]
  rw [Sphere.hitRecordAt_eq_spec sphereB xRay HitRecord.default 2 hsq,
    Sphere.specRecordAt, hp]
  have hout : (Vector3D.with_values 2 0 0 - sphereB.center)
      / sphereB.radius = Vector3D.with_values 0 0 1 := by
    apply Vector3D.ext <;> norm_num [sphereB]
  rw [hout]
  have hff : decide
      (xRay.direction.dot (Vector3D.with_values 0 0 1) < 0) = false := by
    rw [decide_eq_false_iff_not]
    norm_num [xRay, Ray.create, Vector3D.dot]
  rw [hff]
  have hneg : -(Vector3D.with_values 0 0 1) = Vector3D.with_values 0 0 (-1) := by
    apply Vector3D.ext <;> norm_num
  simp [hneg]

/-- After the tangent hit at `t = 2` has narrowed the interval to (0, 2),
`sphereA` no longer hits (its only root is exactly 2). -/
lemma sphereA_narrow_eval (rec : HitRecord) :
    sphereA.hit xRay (Interval.new 0 2) rec = (false, rec) := by
  have hdisc : sphereA.disc xRay = 0 := by
    norm_num [sphereA, xRay, Ray.create, Sphere.disc, Vector3D.dot,
      Vector3D.length_squared]
  have hroot1 : sphereA.root1 xRay = 2 := by
    simp only [Sphere.root1, hdisc, Real.sqrt_zero]
    norm_num [sphereA, xRay, Ray.create, Vector3D.dot,
      Vector3D.length_squared]
  have hroot2 : sphereA.root2 xRay = 2 := by
    simp only [Sphere.root2, hdisc, Real.sqrt_zero]
    norm_num [sphereA, xRay, Ray.create, Vector3D.dot,
      Vector3D.length_squared]
  have h0 : ¬ sphereA.disc xRay < 0 := by rw [hdisc]; norm_num
  have h1 : ¬ (Interval.new 0 2).surrounds (sphereA.root1 xRay) = true := by
    rw [hroot1, Interval.surrounds_eq_true]
    norm_num
  have h2 : ¬ (Interval.new 0 2).surrounds (sphereA.root2 xRay) = true := by
    rw [hroot2, Interval.surrounds_eq_true]
    norm_num
  rw [Sphere.hit_eq, if_neg h0, if_neg h1, if_neg h2]

/-- Same for `sphereB`: no hit strictly inside (0, 2). -/
lemma sphereB_narrow_eval (rec : HitRecord) :
    sphereB.hit xRay (Interval.new 0 2) rec = (false, rec) := by
  have hdisc : sphereB.disc xRay = 0 := by
    norm_num [sphereB, xRay, Ray.create, Sphere.disc, Vector3D.dot,
      Vector3D.length_squared]
  have hroot1 : sphereB.root1 xRay = 2 := by
    simp only [Sphere.root1, hdisc, Real.sqrt_zero]
    norm_num [sphereB, xRay, Ray.create, Vector3D.dot,
      Vector3D.length_squared]
  have hroot2 : sphereB.root2 xRay = 2 := by
    simp only [Sphere.root2, hdisc, Real.sqrt_zero]
    norm_num [sphereB, xRay, Ray.create, Vector3D.dot,
      Vector3D.length_squared]
  have h0 : ¬ sphereB.disc xRay < 0 := by rw [hdisc]; norm_num
  have h1 : ¬ (Interval.new 0 2).surrounds (sphereB.root1 xRay) = true := by
    rw [hroot1, Interval.surrounds_eq_true]
    norm_num
  have h2 : ¬ (Interval.new 0 2).surrounds (sphereB.root2 xRay) = true := by
    rw [hroot2, Interval.surrounds_eq_true]
    norm_num
  rw [Sphere.hit_eq, if_neg h0, if_neg h1, if_neg h2]

/-- The list [A, B] keeps A's record: B is pruned by the narrowed range. -/
lemma listAB_eval :
    HittableList.hit [sphereA, sphereB] xRay (Interval.new 0 10)
        HitRecord.default
      = (true, ⟨Vector3D.with_values 2 0 0, Vector3D.with_values 0 0 1,
          2, false⟩) := by
  rw [HittableList.hit]
  simp only [Interval.new_min, Interval.new_max, HittableList.hitLoop,
    sphereA_wide_eval, sphereB_narrow_eval]
  simp

/-- The list [B, A] keeps B's record instead. -/
lemma listBA_eval :
    HittableList.hit [sphereB, sphereA] xRay (Interval.new 0 10)
        HitRecord.default
      = (true, ⟨Vector3D.with_values 2 0 0, Vector3D.with_values 0 0 (-1),
          2, false⟩) := by
  rw [HittableList.hit]
  simp only [Interval.new_min, Interval.new_max, HittableList.hitLoop,
    sphereB_wide_eval, sphereA_narrow_eval]
  simp

/-- `HittableList::hit` on the empty list reports no hit and leaves the
record untouched. -/
lemma emptyList_hit (r : Ray) (i : Interval) (rec : HitRecord) :
    HittableList.hit [] r i rec = (false, rec) := rfl

/-- `ray_color` on the straight-up ray over the empty world. -/
lemma upRay_color_eval :
    Camera.ray_color 1 upRay [] = Vector3D.with_values 0.25 0.55 1 := by
  simp only [Camera.ray_color, emptyList_hit]
  have hu : upRay.direction.unit_vector = Vector3D.with_values 0 1 0 := by
    have h : upRay.direction = Vector3D.with_values 0 1 0 := rfl
    rw [h, Vector3D.unit_vector_of_length_squared_one]
    norm_num [Vector3D.length_squared]
  rw [hu]
  simp only [Bool.false_eq_true, if_false]
  apply Vector3D.ext <;> norm_num

/-- `ray_color` on the straight-down ray over the empty world. -/
lemma downRay_color_eval :
    Camera.ray_color 1 downRay [] = Vector3D.with_values 0.75 0.85 1 := by
  simp only [Camera.ray_color, emptyList_hit]
  have hu : downRay.direction.unit_vector = Vector3D.with_values 0 (-1) 0 := by
    have h : downRay.direction = Vector3D.with_values 0 (-1) 0 := rfl
    rw [h, Vector3D.unit_vector_of_length_squared_one]
    norm_num [Vector3D.length_squared]
  rw [hu]
  simp only [Bool.false_eq_true, if_false]
  apply Vector3D.ext <;> norm_num

-- ---------------------------------------------------------------------------
-- Claim theorems
-- ---------------------------------------------------------------------------

/-- C1: for every ray with nonzero direction, search interval, and input
record, `Sphere::hit` computes `oc = origin − center`, `a = |direction|²`,
`half_b = dot(oc, direction)`, `c = |oc|² − radius²`,
`discriminant = half_b² − a·c`; it returns false when the discriminant is
negative; otherwise it chooses root `(−half_b − sqrtd)/a` if that root
strictly lies within the search interval, else `(−half_b + sqrtd)/a`
(so the smaller root is tried first), returning false if neither does; on
success it returns true and the record holds `t` = the chosen root,
`p = ray.at(t)`, `front_face = (dot(ray.direction, outward_normal) < 0)`
for `outward_normal = (p − center)/radius`, and `normal = outward_normal`
if front-facing, otherwise `−outward_normal`. -/
theorem sphere_hit_formula (s : Sphere) (r : Ray) (ray_t : Interval)
    (rec : HitRecord) (hdir : r.direction ≠ Vector3D.new) :
    (s.disc r = ((r.origin - s.center).dot r.direction)
          * ((r.origin - s.center).dot r.direction)
        - r.direction.length_squared
          * ((r.origin - s.center).length_squared - s.radius * s.radius)) ∧
    (s.root1 r = (-((r.origin - s.center).dot r.direction)
        - Real.sqrt (s.disc r)) / r.direction.length_squared) ∧
    (s.root2 r = (-((r.origin - s.center).dot r.direction)
        + Real.sqrt (s.disc r)) / r.direction.length_squared) ∧
    (s.disc r < 0 → s.hit r ray_t rec = (false, rec)) ∧
    (0 ≤ s.disc r →
      s.root1 r ≤ s.root2 r ∧
      (ray_t.surrounds (s.root1 r) = true →
        s.hit r ray_t rec = (true, s.specRecordAt r (s.root1 r))) ∧
      (ray_t.surrounds (s.root1 r) = false →
        ray_t.surrounds (s.root2 r) = true →
        s.hit r ray_t rec = (true, s.specRecordAt r (s.root2 r))) ∧
      (ray_t.surrounds (s.root1 r) = false →
        ray_t.surrounds (s.root2 r) = false →
        s.hit r ray_t rec = (false, rec))) := by
  have ha : r.direction.length_squared ≠ 0 := fun h =>
    hdir ((Vector3D.length_squared_eq_zero_iff _).mp h)
  refine ⟨rfl, rfl, rfl, ?_, ?_⟩
  · intro h
    rw [Sphere.hit_eq, if_pos h]
  · intro hd
    have hnlt : ¬ s.disc r < 0 := not_lt.mpr hd
    refine ⟨Sphere.root1_le_root2 s r, ?_, ?_, ?_⟩
    · intro h1
      rw [Sphere.hit_eq, if_neg hnlt, if_pos h1,
        Sphere.hitRecordAt_eq_spec s r rec _
          (Sphere.dist_at_root s r ha hd (Or.inl rfl))]
    · intro h1 h2
      rw [Sphere.hit_eq, if_neg hnlt, if_neg (by rw [h1]; simp),
        if_pos h2,
        Sphere.hitRecordAt_eq_spec s r rec _
          (Sphere.dist_at_root s r ha hd (Or.inr rfl))]
    · intro h1 h2
      rw [Sphere.hit_eq, if_neg hnlt, if_neg (by rw [h1]; simp),
        if_neg (by rw [h2]; simp)]

/-- Witness for C1: on the repository's outside-hit scenario the first root
is accepted, so `Sphere::hit` returns the record described by the claim. -/
theorem sphere_hit_formula_witness :
    testSphere.hit xRay (Interval.new 0.5 1.5) HitRecord.default
      = (true, testSphere.specRecordAt xRay (testSphere.root1 xRay)) := by
  have hdir : xRay.direction ≠ Vector3D.new := by
    intro h
    have hx := congrArg Vector3D.x h
    norm_num [xRay, Ray.create] at hx
  have h := sphere_hit_formula testSphere xRay (Interval.new 0.5 1.5)
    HitRecord.default hdir
  have hd : 0 ≤ testSphere.disc xRay := by rw [testSphere_disc]; norm_num
  have h1 : (Interval.new 0.5 1.5).surrounds (testSphere.root1 xRay)
      = true := by
    rw [testSphere_root1, Interval.surrounds_eq_true]
    norm_num
  exact (h.2.2.2.2 hd).2.1 h1

/-- C2: whenever `Sphere::hit` or `HittableList::hit` returns true, the
reported parameter `t` lies strictly inside the search interval
(`min < t < max`, both bounds exclusive). -/
theorem hit_param_strictly_inside (r : Ray) (i : Interval) (rec : HitRecord) :
    (∀ s : Sphere, (s.hit r i rec).1 = true →
      i.min < (s.hit r i rec).2.t ∧ (s.hit r i rec).2.t < i.max) ∧
    (∀ l : HittableList, (l.hit r i rec).1 = true →
      i.min < (l.hit r i rec).2.t ∧ (l.hit r i rec).2.t < i.max) := by
  constructor
  · intro s h
    exact Sphere.hit_t_surrounds s r i rec h
  · intro l h
    exact ((HittableList.hit_spec l r i rec).2.2 h).1

/-- Witness for C2 on the repository's outside-hit scenario: the reported
parameter 1 lies strictly between 0.5 and 1.5. -/
theorem hit_param_strictly_inside_witness :
    (Interval.new 0.5 1.5).min
        < (testSphere.hit xRay (Interval.new 0.5 1.5)
            HitRecord.default).2.t
      ∧ (testSphere.hit xRay (Interval.new 0.5 1.5)
            HitRecord.default).2.t
        < (Interval.new 0.5 1.5).max :=
  (hit_param_strictly_inside xRay (Interval.new 0.5 1.5)
    HitRecord.default).1 testSphere (by rw [testSphere_hit_eval])

/-- C3: `HittableList::hit` returns true iff some member reports a hit
within the interval; on success the output record is a member hit over the
original interval whose parameter is minimal among all member hits; and on
a one-element list the result coincides with the single member's hit. -/
theorem list_hit_nearest (l : HittableList) (r : Ray) (i : Interval)
    (rec : HitRecord) :
    ((l.hit r i rec).1 = true ↔
      ∃ s ∈ l, (s.hit r i HitRecord.default).1 = true) ∧
    ((l.hit r i rec).1 = true →
      (∃ s ∈ l, s.hit r i HitRecord.default = (true, (l.hit r i rec).2)) ∧
      ∀ s ∈ l, (s.hit r i HitRecord.default).1 = true →
        (l.hit r i rec).2.t ≤ (s.hit r i HitRecord.default).2.t) ∧
    (∀ s : Sphere, HittableList.hit [s] r i rec = s.hit r i rec) := by
  refine ⟨(HittableList.hit_spec l r i rec).1, ?_,
    fun s => HittableList.hit_singleton s r i rec⟩
  intro h
  exact ((HittableList.hit_spec l r i rec).2.2 h).2

/-- Witness for C3: the singleton list over the test sphere reports the hit
of the repository's outside-hit scenario. -/
theorem list_hit_nearest_witness :
    (HittableList.hit [testSphere] xRay (Interval.new 0.5 1.5)
        HitRecord.default).1 = true := by
  have h := list_hit_nearest [testSphere] xRay (Interval.new 0.5 1.5)
    HitRecord.default
  rw [h.2.2 testSphere, testSphere_hit_eval]

/-- Counterexample for C4: two spheres tangent to the same ray at the same
point (equal parameter `t = 2`, different normals).  Swapping the insertion
order changes the output record, so insertion order does affect the
result. -/
theorem list_hit_order_counterexample :
    List.Perm [sphereA, sphereB] [sphereB, sphereA] ∧
    (HittableList.hit [sphereA, sphereB] xRay (Interval.new 0 10)
        HitRecord.default).2
      ≠ (HittableList.hit [sphereB, sphereA] xRay (Interval.new 0 10)
        HitRecord.default).2 := by
  refine ⟨List.Perm.swap sphereB sphereA [], ?_⟩
  rw [listAB_eval, listBA_eval]
  intro h
  have hz := congrArg (fun rec => rec.normal.z) h
  norm_num at hz

/-- C4 (amended): for every permutation of the members, `HittableList::hit`
returns the same boolean and, on success, the same parametric distance `t`;
the record itself may differ when distinct members are hit at exactly equal
`t` (the first-inserted one wins). -/
theorem list_hit_perm_invariant (l₁ l₂ : HittableList) (hperm : l₁.Perm l₂)
    (r : Ray) (i : Interval) (rec₁ rec₂ : HitRecord) :
    (l₁.hit r i rec₁).1 = (l₂.hit r i rec₂).1 ∧
    ((l₁.hit r i rec₁).1 = true →
      (l₁.hit r i rec₁).2.t = (l₂.hit r i rec₂).2.t) := by
  have h₁ := HittableList.hit_spec l₁ r i rec₁
  have h₂ := HittableList.hit_spec l₂ r i rec₂
  have hfst : (l₁.hit r i rec₁).1 = (l₂.hit r i rec₂).1 := by
    by_cases hb : (l₁.hit r i rec₁).1 = true
    · rcases h₁.1.mp hb with ⟨s, hm, hs⟩
      have h2t : (l₂.hit r i rec₂).1 = true :=
        h₂.1.mpr ⟨s, hperm.mem_iff.mp hm, hs⟩
      rw [hb, h2t]
    · have hb₁ : (l₁.hit r i rec₁).1 = false := by simpa using hb
      rw [hb₁]
      cases hb₂ : (l₂.hit r i rec₂).1 with
      | false => rfl
      | true =>
        rcases h₂.1.mp hb₂ with ⟨s, hm, hs⟩
        exact absurd (h₁.1.mpr ⟨s, hperm.mem_iff.mpr hm, hs⟩) hb
  refine ⟨hfst, ?_⟩
  intro hb₁
  have hb₂ : (l₂.hit r i rec₂).1 = true := by rw [← hfst]; exact hb₁
  obtain ⟨_, ⟨s₁, hm₁, hs₁⟩, hmin₁⟩ := h₁.2.2 hb₁
  obtain ⟨_, ⟨s₂, hm₂, hs₂⟩, hmin₂⟩ := h₂.2.2 hb₂
  have ht₁ : (s₁.hit r i HitRecord.default).1 = true := by rw [hs₁]
  have ht₂ : (s₂.hit r i HitRecord.default).1 = true := by rw [hs₂]
  have hle₁ : (l₁.hit r i rec₁).2.t ≤ (s₂.hit r i HitRecord.default).2.t :=
    hmin₁ s₂ (hperm.mem_iff.mpr hm₂) ht₂
  have hle₂ : (l₂.hit r i rec₂).2.t ≤ (s₁.hit r i HitRecord.default).2.t :=
    hmin₂ s₁ (hperm.mem_iff.mp hm₁) ht₁
  rw [hs₂] at hle₁
  rw [hs₁] at hle₂
  exact le_antisymm hle₁ hle₂

/-- Witness for C4 (amended), at the two tangent spheres: the boolean and
the reported `t` agree for both insertion orders. -/
theorem list_hit_perm_invariant_witness :
    (HittableList.hit [sphereA, sphereB] xRay (Interval.new 0 10)
        HitRecord.default).1
      = (HittableList.hit [sphereB, sphereA] xRay (Interval.new 0 10)
        HitRecord.default).1 ∧
    ((HittableList.hit [sphereA, sphereB] xRay (Interval.new 0 10)
        HitRecord.default).1 = true →
      (HittableList.hit [sphereA, sphereB] xRay (Interval.new 0 10)
          HitRecord.default).2.t
        = (HittableList.hit [sphereB, sphereA] xRay (Interval.new 0 10)
          HitRecord.default).2.t) :=
  list_hit_perm_invariant [sphereA, sphereB] [sphereB, sphereA]
    (List.Perm.swap sphereB sphereA []) xRay (Interval.new 0 10)
    HitRecord.default HitRecord.default

/-- C5: `Interval::clamp` saturates to `[min, max]`: on any properly
ordered interval, `clamp x = min` when `x < min`, `clamp x = max` when
`x > max`, and `clamp x = x` otherwise; on the interval (0.5, 1.5) it
clamps 2 to 1.5 and −1 to 0.5.  The clamp operation is modelled from the
spec because its definition is absent from src/src/interval.rs (it is only
invoked from src/src/color.rs). -/
theorem interval_clamp_saturates :
    (∀ (i : Interval) (x : ℝ), i.min ≤ i.max →
      (x < i.min → i.clamp x = i.min) ∧
      (x > i.max → i.clamp x = i.max) ∧
      (¬ x < i.min → ¬ x > i.max → i.clamp x = x)) ∧
    (Interval.new 0.5 1.5).clamp 2 = 1.5 ∧
    (Interval.new 0.5 1.5).clamp (-1) = 0.5 := by
  have hgen : ∀ (i : Interval) (x : ℝ), i.min ≤ i.max →
      (x < i.min → i.clamp x = i.min) ∧
      (x > i.max → i.clamp x = i.max) ∧
      (¬ x < i.min → ¬ x > i.max → i.clamp x = x) := by
    intro i x hij
    refine ⟨fun h => ?_, fun h => ?_, fun h₁ h₂ => ?_⟩
    · rw [Interval.clamp, if_pos h]
    · have h₁ : ¬ x < i.min := by linarith
      rw [Interval.clamp, if_neg h₁, if_pos h]
    · rw [Interval.clamp, if_neg h₁, if_neg h₂]
  refine ⟨hgen, ?_, ?_⟩
  · exact (hgen (Interval.new 0.5 1.5) 2 (by norm_num)).2.1 (by norm_num)
  · exact (hgen (Interval.new 0.5 1.5) (-1) (by norm_num)).1 (by norm_num)

/-- Witness for C5: clamping 2 into (0, 1) saturates to the maximum. -/
theorem interval_clamp_saturates_witness :
    (Interval.new 0 1).clamp 2 = 1 :=
  (interval_clamp_saturates.1 (Interval.new 0 1) 2 (by norm_num)).2.1
    (by norm_num)

/-- C9 is corrected by this counterexample: a sphere of radius 0 centered
at (2,0,0) IS hit by the ray from the origin along +x over the interval
(1, 3) (the discriminant is exactly zero and the root `t = 2` is strictly
inside), contradicting "a degenerate point sphere is never hit". -/
theorem sphere_zero_radius_counterexample :
    pointSphere.radius = 0 ∧
    (pointSphere.hit xRay (Interval.new 1 3) HitRecord.default).1
      = true := by
  exact ⟨rfl, by rw [pointSphere_hit_eval]⟩

/-- C9 (amended): a radius-0 sphere can be hit, but only when the ray
passes exactly through the center: every successful hit of a radius-0
sphere (by a ray with nonzero direction) reports the center itself as the
hit point, with the parameter strictly inside the search interval. -/
theorem sphere_zero_radius_hit (center : Point3D) (r : Ray) (i : Interval)
    (rec : HitRecord) (hdir : r.direction ≠ Vector3D.new)
    (h : ((Sphere.mk center 0).hit r i rec).1 = true) :
    ((Sphere.mk center 0).hit r i rec).2.p = center ∧
    i.min < ((Sphere.mk center 0).hit r i rec).2.t ∧
    ((Sphere.mk center 0).hit r i rec).2.t < i.max := by
  have ha : r.direction.length_squared ≠ 0 := fun h0 =>
    hdir ((Vector3D.length_squared_eq_zero_iff _).mp h0)
  have hts := Sphere.hit_t_surrounds _ r i rec h
  refine ⟨?_, hts.1, hts.2⟩
  rw [Sphere.hit_eq] at h ⊢
  by_cases hd : (Sphere.mk center 0).disc r < 0
  · rw [if_pos hd] at h
    exact absurd h (by simp)
  rw [if_neg hd] at h ⊢
  have hd' : 0 ≤ (Sphere.mk center 0).disc r := not_lt.mp hd
  by_cases h1 : i.surrounds ((Sphere.mk center 0).root1 r) = true
  · rw [if_pos h1]
    have hsq := Sphere.dist_at_root (Sphere.mk center 0) r ha hd'
      (Or.inl rfl)
    have hz : (r.at' ((Sphere.mk center 0).root1 r) - center)
        = Vector3D.new := by
      refine (Vector3D.length_squared_eq_zero_iff _).mp ?_
      rw [hsq]
      norm_num
    exact Vector3D.eq_of_sub_eq_new hz
  rw [if_neg h1] at h ⊢
  by_cases h2 : i.surrounds ((Sphere.mk center 0).root2 r) = true
  · rw [if_pos h2]
    have hsq := Sphere.dist_at_root (Sphere.mk center 0) r ha hd'
      (Or.inr rfl)
    have hz : (r.at' ((Sphere.mk center 0).root2 r) - center)
        = Vector3D.new := by
      refine (Vector3D.length_squared_eq_zero_iff _).mp ?_
      rw [hsq]
      norm_num
    exact Vector3D.eq_of_sub_eq_new hz
  rw [if_neg h2] at h
  exact absurd h (by simp)

/-- Witness for C9 (amended): the point sphere at (2,0,0) hit by the +x ray
reports the center as the hit point, with the parameter inside (1, 3). -/
theorem sphere_zero_radius_hit_witness :
    ((Sphere.mk (Vector3D.with_values 2 0 0) 0).hit xRay (Interval.new 1 3)
        HitRecord.default).2.p = Vector3D.with_values 2 0 0 ∧
    (Interval.new 1 3).min
      < ((Sphere.mk (Vector3D.with_values 2 0 0) 0).hit xRay
          (Interval.new 1 3) HitRecord.default).2.t ∧
    ((Sphere.mk (Vector3D.with_values 2 0 0) 0).hit xRay (Interval.new 1 3)
        HitRecord.default).2.t < (Interval.new 1 3).max := by
  have hdir : xRay.direction ≠ Vector3D.new := by
    intro h
    have hx := congrArg Vector3D.x h
    norm_num [xRay, Ray.create] at hx
  exact sphere_zero_radius_hit (Vector3D.with_values 2 0 0) xRay
    (Interval.new 1 3) HitRecord.default hdir
    (by rw [show Sphere.mk (Vector3D.with_values 2 0 0) 0 = pointSphere
          from rfl, pointSphere_hit_eval])

/-- C6: `Color::write` maps each accumulated channel through division by
`samples_per_pixel`, the gamma-2 square root, clamping to [0.000, 0.999],
scaling by 255.999 and truncation to a byte; with one sample, an
accumulated channel of exactly 1.0 quantizes to 255 and 0.0 quantizes
to 0. -/
theorem color_write_quantizes :
    (∀ (c : Color) (samples_per_pixel : ℕ),
      Color.write c samples_per_pixel
        = (Color.f64_as_u8 (255.999 * ((Interval.new 0.000 0.999).clamp
              (Real.sqrt (c.x * (1.0 / (samples_per_pixel : ℝ)))))),
           Color.f64_as_u8 (255.999 * ((Interval.new 0.000 0.999).clamp
              (Real.sqrt (c.y * (1.0 / (samples_per_pixel : ℝ)))))),
           Color.f64_as_u8 (255.999 * ((Interval.new 0.000 0.999).clamp
              (Real.sqrt (c.z * (1.0 / (samples_per_pixel : ℝ)))))))) ∧
    Color.write (Vector3D.with_values 1 1 1) 1 = (255, 255, 255) ∧
    Color.write (Vector3D.with_values 0 0 0) 1 = (0, 0, 0) := by
  have hch1 : Color.f64_as_u8 (255.999 * ((Interval.new 0.000 0.999).clamp
      (Real.sqrt ((1 : ℝ) * (1.0 / ((1 : ℕ) : ℝ)))))) = 255 := by
    have h1 : (1 : ℝ) * (1.0 / ((1 : ℕ) : ℝ)) = 1 := by norm_num
    rw [h1, Real.sqrt_one]
    have hcl : (Interval.new 0.000 0.999).clamp 1 = 0.999 := by
      rw [Interval.clamp, if_neg (by norm_num), if_pos (by norm_num)]
      simp
    rw [hcl, Color.f64_as_u8]
    norm_num
    rfl
  have hch0 : Color.f64_as_u8 (255.999 * ((Interval.new 0.000 0.999).clamp
      (Real.sqrt ((0 : ℝ) * (1.0 / ((1 : ℕ) : ℝ)))))) = 0 := by
    have h1 : (0 : ℝ) * (1.0 / ((1 : ℕ) : ℝ)) = 0 := by norm_num
    rw [h1, Real.sqrt_zero]
    have hcl : (Interval.new 0.000 0.999).clamp 0 = 0 := by
      rw [Interval.clamp, if_neg (by norm_num), if_neg (by norm_num)]
    rw [hcl, Color.f64_as_u8]
    norm_num
  refine ⟨fun c spp => rfl, ?_, ?_⟩
  · rw [show Color.write (Vector3D.with_values 1 1 1) 1
        = (Color.f64_as_u8 (255.999 * ((Interval.new 0.000 0.999).clamp
            (Real.sqrt ((1 : ℝ) * (1.0 / ((1 : ℕ) : ℝ)))))),
           Color.f64_as_u8 (255.999 * ((Interval.new 0.000 0.999).clamp
            (Real.sqrt ((1 : ℝ) * (1.0 / ((1 : ℕ) : ℝ)))))),
           Color.f64_as_u8 (255.999 * ((Interval.new 0.000 0.999).clamp
            (Real.sqrt ((1 : ℝ) * (1.0 / ((1 : ℕ) : ℝ))))))) from rfl,
      hch1]
  · rw [show Color.write (Vector3D.with_values 0 0 0) 1
        = (Color.f64_as_u8 (255.999 * ((Interval.new 0.000 0.999).clamp
            (Real.sqrt ((0 : ℝ) * (1.0 / ((1 : ℕ) : ℝ)))))),
           Color.f64_as_u8 (255.999 * ((Interval.new 0.000 0.999).clamp
            (Real.sqrt ((0 : ℝ) * (1.0 / ((1 : ℕ) : ℝ)))))),
           Color.f64_as_u8 (255.999 * ((Interval.new 0.000 0.999).clamp
            (Real.sqrt ((0 : ℝ) * (1.0 / ((1 : ℕ) : ℝ))))))) from rfl,
      hch0]

/-- Counterexample for C7: at `aspect ratio = 2` and `image_width = 3` the
code computes `image_height = 1` (the float-to-integer cast truncates),
while `max(1, round(3/2)) = 2`: initialization truncates rather than
rounds. -/
theorem camera_image_height_counterexample :
    Camera.image_height 3 2 = 1 ∧
    (max 1 (round ((3 : ℝ) / 2)) : ℤ) = 2 := by
  constructor
  · rw [Camera.image_height]
    norm_num
  · rw [round_eq]
    norm_num

/-- C7 (amended): camera initialization sets
`image_height = max(1, trunc(image_width / aspect ratio))`, where the
float-to-`u16` cast truncates toward zero (saturating into the `u16`
range) instead of rounding to nearest; in particular width 3 at ratio 2
yields height 1, not 2. -/
theorem camera_image_height_eq (image_width : ℕ) (aspect : ℝ) :
    Camera.image_height image_width aspect
      = max 1 ((min 65535 ⌊(image_width : ℝ) / aspect⌋).toNat) ∧
    Camera.image_height 3 2 = 1 := by
  constructor
  · rw [Camera.image_height]
    split_ifs with h
    · omega
    · omega
  · rw [Camera.image_height]
    norm_num

/-- Counterexample for C8: over the empty world (so every query misses),
the straight-up unit ray yields (0.25, 0.55, 1.0), not the claimed
sky-blue (0.5, 0.7, 1.0), and the straight-down unit ray yields
(0.75, 0.85, 1.0), not the claimed white (1,1,1): the code computes
`a = 0.5·y + 1.0`, not `0.5·(y + 1.0)`. -/
theorem ray_color_endpoints_counterexample :
    Camera.ray_color 1 upRay [] ≠ Vector3D.with_values 0.5 0.7 1 ∧
    Camera.ray_color 1 downRay [] ≠ Vector3D.with_values 1 1 1 := by
  constructor
  · rw [upRay_color_eval]
    intro h
    have hx := congrArg Vector3D.x h
    norm_num at hx
  · rw [downRay_color_eval]
    intro h
    have hx := congrArg Vector3D.x h
    norm_num at hx

/-- C8 (amended): for every ray whose world query misses (for the given
query bound), `ray_color` returns the linear interpolation
`(1 − a)·(1,1,1) + a·(0.5,0.7,1.0)` with `a = 0.5·unit_direction.y + 1.0`;
consequently a straight-down unit ray yields (0.75, 0.85, 1.0) and a
straight-up unit ray yields (0.25, 0.55, 1.0). -/
theorem ray_color_miss_lerp (tmax : ℝ) (r : Ray) (world : HittableList)
    (hmiss : (world.hit r (Interval.new 0 tmax) HitRecord.default).1
      = false) :
    Camera.ray_color tmax r world
      = (1.0 - (0.5 * (r.direction.unit_vector).y + 1.0))
          * Vector3D.with_values 1 1 1
        + (0.5 * (r.direction.unit_vector).y + 1.0)
          * Vector3D.with_values 0.5 0.7 1.0 ∧
    Camera.ray_color 1 upRay [] = Vector3D.with_values 0.25 0.55 1 ∧
    Camera.ray_color 1 downRay [] = Vector3D.with_values 0.75 0.85 1 := by
  refine ⟨?_, upRay_color_eval, downRay_color_eval⟩
  simp only [Camera.ray_color]
  rw [if_neg (by rw [hmiss]; simp)]

/-- Witness for C8 (amended): discharging the miss hypothesis with the
empty world and the straight-up ray. -/
theorem ray_color_miss_lerp_witness :
    Camera.ray_color 1 upRay []
      = (1.0 - (0.5 * (upRay.direction.unit_vector).y + 1.0))
          * Vector3D.with_values 1 1 1
        + (0.5 * (upRay.direction.unit_vector).y + 1.0)
          * Vector3D.with_values 0.5 0.7 1.0 :=
  (ray_color_miss_lerp 1 upRay []
    (by rw [emptyList_hit upRay (Interval.new 0 1) HitRecord.default])).1

/-- C10: whenever `Sphere::hit` or `HittableList::hit` returns false, the
record passed in is returned exactly unchanged; absence of intersection is
signalled only through the boolean. -/
theorem hit_untouched_on_failure (r : Ray) (i : Interval)
    (rec : HitRecord) :
    (∀ s : Sphere, (s.hit r i rec).1 = false → (s.hit r i rec).2 = rec) ∧
    (∀ l : HittableList, (l.hit r i rec).1 = false →
      (l.hit r i rec).2 = rec) :=
  ⟨fun s h => Sphere.hit_false_snd s r i rec h,
   fun l h => (HittableList.hit_spec l r i rec).2.1 h⟩

/-- Witness for C10 on the repository's miss scenario: the reversed ray
misses the test sphere and the default record is returned untouched. -/
theorem hit_untouched_on_failure_witness :
    (testSphere.hit negRay (Interval.new 2.5 3.5)
        HitRecord.default).2 = HitRecord.default :=
  (hit_untouched_on_failure negRay (Interval.new 2.5 3.5)
    HitRecord.default).1 testSphere
    (by rw [negRay_miss_eval HitRecord.default])

end Raytracer
